import Mathlib

/-!
Shallow embedding of the Campus LAFT (lost-and-found) web application,
restricted to the parts of the code that the specification talks about:

* the client-side filter and search helpers (`src/utils/filters.ts`),
* the claim-resolution workflow of the `ManageClaimsClient` component
  (`handleClaimAction`),
* the chat helpers of `src/lib/supabase/client.ts`
  (`getOrCreateConversation`, `sendMessage`),
* the realtime message-deduplication callback of the chat page,
* the status vocabulary of `types/database.ts` and the admin dashboard's
  item-edit modal.

The hosted database is modelled as plain Lean lists of rows; each remote
call that the TypeScript code performs becomes either a pure list
transformation (on success) or is driven by an explicit failure flag in an
environment record (on failure), mirroring the `{ data, error }` results of
the client library.  JavaScript string truthiness (`""`, `null` and
`undefined` are falsy) is made explicit wherever the source relies on it.
-/

namespace CampusLAFT

/-! ## Data model (`types/database.ts`) -/

/-- The item record, restricted to the fields the claims touch.
`description`, `category`, `location_description`, `date_reported` and
`created_at` are optional in the TypeScript interface and are modelled as
`Option String`; `turn_in_to_security` is an optional boolean, with the
missing value behaving like `false` under JS truthiness. -/
structure Item where
  id : String
  user_id : String
  title : String
  description : Option String := none
  category : Option String := none
  status : String
  location_description : Option String := none
  turn_in_to_security : Bool := false
  date_reported : Option String := none
  created_at : Option String := none
  deriving DecidableEq

/-- `export type ItemStatus = "lost" | "found" | "claimed" | "archived"`,
as the value-level list `ItemStatusValues` of `types/database.ts`. -/
def ItemStatusValues : List String := ["lost", "found", "claimed", "archived"]

/-- `export type ClaimStatus = "pending" | "approved" | "rejected" | "retracted"`. -/
def ClaimStatusValues : List String :=
  ["pending", "approved", "rejected", "retracted"]

/-! ## JavaScript string primitives

The source is JavaScript, whose strings are sequences of code units; its
`toLowerCase`, `trim` and `includes` are modelled directly on the character
list `String.data` (for the ASCII data this application handles, JS
`toLowerCase` agrees with `Char.toLower`, and JS `trim` strips the usual
whitespace characters). -/

/-- JS `String.prototype.toLowerCase`, character by character. -/
def jsToLower (s : String) : String := ⟨s.data.map Char.toLower⟩

/-- Strip trailing whitespace from a character list. -/
def dropTrailingWs (l : List Char) : List Char :=
  (l.reverse.dropWhile Char.isWhitespace).reverse

/-- JS `String.prototype.trim`: strip leading and trailing whitespace. -/
def jsTrim (s : String) : String :=
  ⟨dropTrailingWs (s.data.dropWhile Char.isWhitespace)⟩

/-- JS `String.prototype.includes`: substring containment. -/
def jsIncludes (s pat : String) : Bool := decide (pat.data <:+: s.data)

/-! ## Filter state (`FilterControls.tsx`) and `applyFilters` / `applySearch`
(`src/utils/filters.ts`).

Dates: the TypeScript code parses `item.date_reported || item.created_at || ""`
with the platform's `new Date(...)` and compares the result against the
`Date` objects in `filters.dateRange`.  The platform parser is modelled as an
explicit parameter `parseDate : String → Option Int` (epoch milliseconds,
`none` for `NaN`), and the `Date` bounds as `Option Int`. -/

structure FilterState where
  category : List String
  status : List String
  dateStart : Option Int := none
  dateEnd : Option Int := none

/-- `item.date_reported || item.created_at || ""`: JS `||` skips `null`,
`undefined` and the empty string. -/
def itemDateString (item : Item) : String :=
  match item.date_reported with
  | some s => if s = "" then (match item.created_at with
      | some t => if t = "" then "" else t
      | none => "") else s
  | none => match item.created_at with
      | some t => if t = "" then "" else t
      | none => ""

/-- The category branch of `applyFilters` (filters.ts lines 31-48):
when the category selection is non-empty, keep the item iff its `category`
field is a string that equals one of the selected categories
case-insensitively. -/
def matchesCategory (filters : FilterState) (item : Item) : Bool :=
  if filters.category.length > 0 then
    filters.category.any (fun cat =>
      match item.category with
      | some c => jsToLower c == jsToLower cat
      | none => false)
  else true

/-- The status branch of `applyFilters` (filters.ts lines 50-77), including
the special handling of the `'secured'` selection: a selected status equal to
`'secured'` (case-insensitively) matches items with `turn_in_to_security`
set, while every other selected status is compared against `item.status`
case-insensitively. -/
def matchesStatus (filters : FilterState) (item : Item) : Bool :=
  if filters.status.length > 0 then
    let wantsSecured := filters.status.any (fun s => jsToLower s == "secured")
    let otherStatuses := filters.status.filter (fun s => !(jsToLower s == "secured"))
    let securedMatch := wantsSecured && item.turn_in_to_security
    let otherMatch := otherStatuses.length > 0 &&
      otherStatuses.any (fun s => jsToLower item.status == jsToLower s)
    securedMatch || otherMatch
  else true

/-- The start-date branch of `applyFilters` (filters.ts lines 79-93): an
unparsable item date is only warned about and the item is kept. -/
def matchesDateStart (parseDate : String → Option Int) (filters : FilterState)
    (item : Item) : Bool :=
  match filters.dateStart with
  | none => true
  | some start =>
    match parseDate (itemDateString item) with
    | none => true
    | some t => !(t < start)

/-- The end-date branch of `applyFilters` (filters.ts lines 95-109). -/
def matchesDateEnd (parseDate : String → Option Int) (filters : FilterState)
    (item : Item) : Bool :=
  match filters.dateEnd with
  | none => true
  | some stop =>
    match parseDate (itemDateString item) with
    | none => true
    | some t => !(stop < t)

/-- `applyFilters` (filters.ts lines 7-117).  The `!items ||
!Array.isArray(items)` guard cannot fire for a Lean list and the per-item
`try/catch` cannot fire for pure field accesses, so the function is the
conjunction of the four branch predicates over `items.filter`. -/
def applyFilters (parseDate : String → Option Int) (items : List Item)
    (filters : FilterState) : List Item :=
  items.filter (fun item =>
    matchesCategory filters item &&
    matchesStatus filters item &&
    matchesDateStart parseDate filters item &&
    matchesDateEnd parseDate filters item)

/-- One disjunct of the `applySearch` predicate: a truthy (present and
non-empty) field whose lowercasing contains the term as a substring
(`item.field && item.field.toLowerCase().includes(term)`). -/
def fieldHasTerm (field : Option String) (term : String) : Bool :=
  match field with
  | some s => !(s == "") && jsIncludes (jsToLower s) term
  | none => false

/-- `applySearch` (filters.ts lines 119-138): return the list unchanged for
an empty or whitespace-only term, otherwise keep the items one of whose
`title`, `description`, `location_description` or `category` contains the
lowercased trimmed term. -/
def applySearch (items : List Item) (searchTerm : String) : List Item :=
  if searchTerm == "" || jsTrim searchTerm == "" then items
  else
    let term := jsTrim (jsToLower searchTerm)
    items.filter (fun item =>
      fieldHasTerm (some item.title) term ||
      fieldHasTerm item.description term ||
      fieldHasTerm item.location_description term ||
      fieldHasTerm item.category term)

/-! ## Spec-side restatements of the filter behaviour

These definitions follow the specification's words (equality check on the
selected values; substring lookup over the four text fields) and are
compared against the source-derived `applyFilters` / `applySearch` above. -/

/-- Spec-side: the items whose `category` is a string equal, under
case-insensitive comparison, to one of the selected category values. -/
def categoryEqualityFilter (selected : List String) (items : List Item) :
    List Item :=
  items.filter (fun item =>
    match item.category with
    | some c => selected.any (fun cat => jsToLower c == jsToLower cat)
    | none => false)

/-- Spec-side: the items whose `status` equals, under case-insensitive
comparison, one of the selected status values. -/
def statusEqualityFilter (selected : List String) (items : List Item) :
    List Item :=
  items.filter (fun item =>
    selected.any (fun s => jsToLower item.status == jsToLower s))

/-- Spec-side: does an optional text field contain the term as a substring,
case-insensitively?  A missing field contains nothing. -/
def optFieldHasTerm (field : Option String) (term : String) : Bool :=
  match field with
  | some s => jsIncludes (jsToLower s) term
  | none => false

/-- Spec-side: the items for which the term is a substring of the title,
description, location description or category, compared case-insensitively. -/
def searchTermFilter (items : List Item) (term : String) : List Item :=
  items.filter (fun item =>
    optFieldHasTerm (some item.title) term ||
    optFieldHasTerm item.description term ||
    optFieldHasTerm item.location_description term ||
    optFieldHasTerm item.category term)

/-! ## Helper lemmas about the JS string primitives -/

lemma not_isWhitespace_ofNat (n : Nat) (h1 : 97 ≤ n) (h2 : n ≤ 122) :
    (Char.ofNat n).isWhitespace = false := by
  interval_cases n <;> decide

lemma isWhitespace_toLower (c : Char) :
    (Char.toLower c).isWhitespace = c.isWhitespace := by
  have hdef : Char.toLower c =
      if c.toNat ≥ 65 ∧ c.toNat ≤ 90 then Char.ofNat (c.toNat + 32) else c := rfl
  rw [hdef]
  split
  case isTrue h =>
    obtain ⟨h1, h2⟩ := h
    have h3 : c ≠ ' ' := by intro e; subst e; exact absurd h1 (by decide)
    have h4 : c ≠ '\t' := by intro e; subst e; exact absurd h1 (by decide)
    have h5 : c ≠ '\r' := by intro e; subst e; exact absurd h1 (by decide)
    have h6 : c ≠ '\n' := by intro e; subst e; exact absurd h1 (by decide)
    have hws : c.isWhitespace = false := by simp [Char.isWhitespace, h3, h4, h5, h6]
    rw [hws]
    exact not_isWhitespace_ofNat (c.toNat + 32) (by omega) (by omega)
  case isFalse h => rfl

lemma forall_ws_dropWhile_iff (l : List Char) :
    (∀ x ∈ l.dropWhile Char.isWhitespace, x.isWhitespace = true) ↔
      (∀ x ∈ l, x.isWhitespace = true) := by
  constructor
  · intro h x hx
    rw [← List.takeWhile_append_dropWhile Char.isWhitespace l] at hx
    rcases List.mem_append.mp hx with h1 | h2
    · exact List.mem_takeWhile_imp h1
    · exact h x h2
  · intro h x hx
    exact h x (List.dropWhile_subset _ hx)

lemma jsTrim_eq_empty_iff (s : String) :
    jsTrim s = "" ↔ ∀ c ∈ s.data, c.isWhitespace = true := by
  rw [String.ext_iff]
  show dropTrailingWs (s.data.dropWhile Char.isWhitespace) = [] ↔ _
  unfold dropTrailingWs
  rw [List.reverse_eq_nil_iff, List.dropWhile_eq_nil_iff]
  constructor
  · intro h
    rw [← forall_ws_dropWhile_iff]
    intro x hx
    exact h x (List.mem_reverse.mpr hx)
  · intro h x hx
    exact forall_ws_dropWhile_iff s.data |>.mpr h x (List.mem_reverse.mp hx)

lemma jsTrim_jsToLower_ne_empty {s : String} (h : jsTrim s ≠ "") :
    jsTrim (jsToLower s) ≠ "" := by
  intro h2
  apply h
  rw [jsTrim_eq_empty_iff] at h2 ⊢
  intro c hc
  have hm : Char.toLower c ∈ (jsToLower s).data :=
    List.mem_map_of_mem Char.toLower hc
  have := h2 (Char.toLower c) hm
  rwa [isWhitespace_toLower] at this

lemma data_ne_nil_of_ne_empty {s : String} (h : s ≠ "") : s.data ≠ [] := by
  intro hd
  exact h (String.ext_iff.mpr hd)

lemma fieldHasTerm_eq_optFieldHasTerm {term : String} (h : term.data ≠ [])
    (f : Option String) : fieldHasTerm f term = optFieldHasTerm f term := by
  cases f with
  | none => rfl
  | some s =>
    unfold fieldHasTerm optFieldHasTerm
    by_cases hs : s = ""
    · subst hs
      have hinc : jsIncludes (jsToLower "") term = false := by
        simp [jsIncludes, jsToLower, h]
      simp [hinc]
    · have hbe : (s == "") = false := by simpa using hs
      simp [hbe]

/-! ## Claims C4, C5, C6: the filter and search functions -/

/-- C5: the category filter is an equality check.  For every item list and
every filter state in which only the category selection is non-empty (no
status or date filters), `applyFilters` returns exactly the items whose
category is a string equal, under case-insensitive comparison, to one of the
selected category values. -/
theorem claim_C5_category_filter (parseDate : String → Option Int)
    (items : List Item) (filters : FilterState)
    (hs : filters.status = []) (hds : filters.dateStart = none)
    (hde : filters.dateEnd = none) (hc : filters.category ≠ []) :
    applyFilters parseDate items filters =
      categoryEqualityFilter filters.category items := by
  unfold applyFilters categoryEqualityFilter
  apply List.filter_congr
  intro item _
  have hlen : 0 < filters.category.length := List.length_pos.mpr hc
  cases hcat : item.category with
  | some c =>
    simp [matchesCategory, matchesStatus, matchesDateStart, matchesDateEnd,
      hs, hds, hde, hlen, hcat]
  | none =>
    simp [matchesCategory, matchesStatus, matchesDateStart, matchesDateEnd,
      hs, hds, hde, hlen, hcat]

/-- Witness for C5: a concrete category-only filter call. -/
theorem claim_C5_category_filter_witness :
    applyFilters (fun _ => none)
      [{ id := "i1", user_id := "u1", title := "Wallet", status := "lost",
         category := some "Keys" }]
      { category := ["keys"], status := [] } =
    categoryEqualityFilter ["keys"]
      [{ id := "i1", user_id := "u1", title := "Wallet", status := "lost",
         category := some "Keys" }] :=
  claim_C5_category_filter (fun _ => none) _ _ rfl rfl rfl (by decide)

/-- C4 counterexample: the status filter is not a pure equality check.  With
the single selected status `"secured"`, an item whose `status` is `"lost"`
but whose `turn_in_to_security` flag is set is returned by `applyFilters`,
although its status field equals no selected value. -/
theorem claim_C4_status_filter_counterexample :
    applyFilters (fun _ => none)
      [{ id := "i1", user_id := "u1", title := "Wallet", status := "lost",
         turn_in_to_security := true }]
      { category := [], status := ["secured"] } ≠
    statusEqualityFilter ["secured"]
      [{ id := "i1", user_id := "u1", title := "Wallet", status := "lost",
         turn_in_to_security := true }] := by decide

/-- C4 amended: for every item list and every filter state in which only the
status selection is non-empty and no selected status value equals
`'secured'` case-insensitively, `applyFilters` returns exactly the items
whose status field equals, under case-insensitive string comparison, one of
the selected status values. -/
theorem claim_C4_status_filter_amended (parseDate : String → Option Int)
    (items : List Item) (filters : FilterState)
    (hc : filters.category = []) (hds : filters.dateStart = none)
    (hde : filters.dateEnd = none) (hs : filters.status ≠ [])
    (hsec : ∀ s ∈ filters.status, jsToLower s ≠ "secured") :
    applyFilters parseDate items filters =
      statusEqualityFilter filters.status items := by
  unfold applyFilters statusEqualityFilter
  apply List.filter_congr
  intro item _
  have hlen : 0 < filters.status.length := List.length_pos.mpr hs
  have hany : filters.status.any (fun s => jsToLower s == "secured") = false := by
    rw [List.any_eq_false]
    intro s hsmem
    simpa using hsec s hsmem
  have hfilter :
      filters.status.filter (fun s => !(jsToLower s == "secured")) =
        filters.status := by
    apply List.filter_eq_self.mpr
    intro s hsmem
    simpa using hsec s hsmem
  simp [matchesCategory, matchesStatus, matchesDateStart, matchesDateEnd,
    hc, hds, hde, hlen, hany, hfilter]

/-- Witness for the amended C4: a concrete status-only filter call. -/
theorem claim_C4_status_filter_witness :
    applyFilters (fun _ => none)
      [{ id := "i1", user_id := "u1", title := "Wallet", status := "Lost" }]
      { category := [], status := ["lost"] } =
    statusEqualityFilter ["lost"]
      [{ id := "i1", user_id := "u1", title := "Wallet", status := "Lost" }] :=
  claim_C4_status_filter_amended (fun _ => none) _ _ rfl rfl rfl (by decide)
    (by decide)

/-- C6: client-side search is a substring lookup.  For a term that trims to
the empty string, `applySearch` returns the list unchanged; for every other
term it returns exactly the items for which the lowercased trimmed term is a
substring of the title, description, location description or category,
compared case-insensitively. -/
theorem claim_C6_applySearch_substring (items : List Item) (t : String) :
    (jsTrim t = "" → applySearch items t = items) ∧
    (jsTrim t ≠ "" →
      applySearch items t = searchTermFilter items (jsTrim (jsToLower t))) := by
  constructor
  · intro h
    unfold applySearch
    rw [if_pos]
    simp [h]
  · intro h
    have ht : t ≠ "" := by
      intro e; subst e; exact h rfl
    unfold applySearch searchTermFilter
    rw [if_neg]
    · apply List.filter_congr
      intro item _
      have hd : (jsTrim (jsToLower t)).data ≠ [] :=
        data_ne_nil_of_ne_empty (jsTrim_jsToLower_ne_empty h)
      rw [fieldHasTerm_eq_optFieldHasTerm hd, fieldHasTerm_eq_optFieldHasTerm hd,
        fieldHasTerm_eq_optFieldHasTerm hd, fieldHasTerm_eq_optFieldHasTerm hd]
    · simp [ht, h]

/-- Witness for C6: a concrete search over one item, with a real term and a
whitespace-only term. -/
theorem claim_C6_applySearch_witness :
    applySearch
        [{ id := "i1", user_id := "u1", title := "Blue Wallet",
           status := "lost" }] " Wal " =
      searchTermFilter
        [{ id := "i1", user_id := "u1", title := "Blue Wallet",
           status := "lost" }] (jsTrim (jsToLower " Wal ")) ∧
    applySearch
        [{ id := "i1", user_id := "u1", title := "Blue Wallet",
           status := "lost" }] "  " =
      [{ id := "i1", user_id := "u1", title := "Blue Wallet",
         status := "lost" }] :=
  ⟨(claim_C6_applySearch_substring _ " Wal ").2 (by decide),
   (claim_C6_applySearch_substring _ "  ").1 (by decide)⟩

/-! ## Chat data model (`types/database.ts`, `lib/supabase/client.ts`) -/

/-- An uploaded chat attachment's metadata. -/
structure MessageAttachment where
  path : String
  url : String
  deriving DecidableEq

/-- A chat message row (`messages` table). -/
structure Message where
  id : String
  conversation_id : String
  sender_id : String
  body : String
  attachments : List MessageAttachment := []
  deriving DecidableEq

/-- A profile row, restricted to the fields the chat helpers read. -/
structure Profile where
  id : String
  full_name : Option String := none
  role : Option String := none
  deriving DecidableEq

/-- A conversation row (`conversations` table). -/
structure Conversation where
  id : String
  item_id : String
  type : String
  creator_id : String
  deriving DecidableEq

/-- A notification row (`notifications` table), restricted to the columns the
embedded operations insert. -/
structure Notification where
  user_id : String
  item_id : Option String := none
  claim_id : Option String := none
  type : String
  title : String
  message : String
  deriving DecidableEq

/-- The slice of the hosted database that the chat helpers touch. -/
structure ChatDB where
  conversations : List Conversation
  profiles : List Profile
  items : List Item
  messages : List Message
  notifications : List Notification
  deriving DecidableEq

/-! ## C7: realtime message deduplication (chat page subscription callback)

The `subscribeToMessages` callback of the chat page updates the message list
with `setMessages(prev => ...)`: if a message with the delivered id is
already present the list is returned unchanged, otherwise the delivered
message is appended. -/

/-- The chat page's realtime state updater. -/
def receiveRealtimeMessage (prev : List Message) (msg : Message) :
    List Message :=
  if prev.any (fun m => m.id == msg.id) then prev else prev ++ [msg]

lemma nodup_receiveRealtimeMessage {prev : List Message} {msg : Message}
    (h : (prev.map Message.id).Nodup) :
    ((receiveRealtimeMessage prev msg).map Message.id).Nodup := by
  unfold receiveRealtimeMessage
  split
  · exact h
  case isFalse hany =>
    rw [List.map_append]
    refine List.Nodup.append h (by simp) ?_
    intro x hx hmem
    apply hany
    rw [List.any_eq_true]
    simp only [List.mem_singleton, List.map_cons, List.map_nil] at hmem
    rcases List.mem_map.mp hx with ⟨m, hm, hid⟩
    exact ⟨m, hm, by rw [hid, hmem]; simp⟩

lemma nodup_foldl_receiveRealtimeMessage (events : List Message) :
    ∀ prev : List Message, (prev.map Message.id).Nodup →
      (((events.foldl receiveRealtimeMessage prev).map Message.id)).Nodup := by
  induction events with
  | nil => exact fun prev h => h
  | cons e es ih =>
    intro prev h
    exact ih _ (nodup_receiveRealtimeMessage h)

/-- C7: realtime deduplication is a skip-if-id-already-seen check.  A
delivered message whose id is already in the list leaves the list unchanged,
any other delivered message is appended at the end, and consequently
pairwise-distinct ids stay pairwise distinct under any sequence of delivered
events. -/
theorem claim_C7_realtime_dedup (prev : List Message) (msg : Message)
    (events : List Message) :
    (prev.any (fun m => m.id == msg.id) = true →
      receiveRealtimeMessage prev msg = prev) ∧
    (prev.any (fun m => m.id == msg.id) = false →
      receiveRealtimeMessage prev msg = prev ++ [msg]) ∧
    ((prev.map Message.id).Nodup →
      ((events.foldl receiveRealtimeMessage prev).map Message.id).Nodup) := by
  refine ⟨?_, ?_, ?_⟩
  · intro h
    unfold receiveRealtimeMessage
    rw [if_pos h]
  · intro h
    unfold receiveRealtimeMessage
    rw [if_neg (by rw [h]; exact Bool.false_ne_true)]
  · exact fun h => nodup_foldl_receiveRealtimeMessage events prev h

/-- Witness for C7 at concrete messages: a duplicate id is skipped, a fresh
id is appended, and distinct ids remain distinct over a delivery sequence. -/
theorem claim_C7_realtime_dedup_witness :
    (receiveRealtimeMessage
        [{ id := "m1", conversation_id := "c1", sender_id := "u1", body := "hi" }]
        { id := "m1", conversation_id := "c1", sender_id := "u1", body := "hi again" } =
      [{ id := "m1", conversation_id := "c1", sender_id := "u1", body := "hi" }]) ∧
    (receiveRealtimeMessage
        [{ id := "m1", conversation_id := "c1", sender_id := "u1", body := "hi" }]
        { id := "m2", conversation_id := "c1", sender_id := "u2", body := "yo" } =
      [{ id := "m1", conversation_id := "c1", sender_id := "u1", body := "hi" },
       { id := "m2", conversation_id := "c1", sender_id := "u2", body := "yo" }]) ∧
    (([{ id := "m2", conversation_id := "c1", sender_id := "u2", body := "yo" },
       { id := "m1", conversation_id := "c1", sender_id := "u1", body := "hi again" }].foldl
        receiveRealtimeMessage
        [{ id := "m1", conversation_id := "c1", sender_id := "u1", body := "hi" }]).map
          Message.id).Nodup :=
  ⟨(claim_C7_realtime_dedup
      [{ id := "m1", conversation_id := "c1", sender_id := "u1", body := "hi" }]
      { id := "m1", conversation_id := "c1", sender_id := "u1", body := "hi again" }
      []).1 (by decide),
   (claim_C7_realtime_dedup
      [{ id := "m1", conversation_id := "c1", sender_id := "u1", body := "hi" }]
      { id := "m2", conversation_id := "c1", sender_id := "u2", body := "yo" }
      []).2.1 (by decide),
   (claim_C7_realtime_dedup
      [{ id := "m1", conversation_id := "c1", sender_id := "u1", body := "hi" }]
      { id := "m1", conversation_id := "c1", sender_id := "u1", body := "hi" }
      [{ id := "m2", conversation_id := "c1", sender_id := "u2", body := "yo" },
       { id := "m1", conversation_id := "c1", sender_id := "u1", body := "hi again" }]).2.2
      (by decide)⟩

/-! ## C10: `getOrCreateConversation` (client.ts lines 32-65)

The select uses `.eq("item_id", ...).eq("type", ...).eq("creator_id", ...)
.limit(1).single()`, i.e. the first matching row (none at all yields the
`PGRST116` error, which the code treats as "not found").  Auth errors and
other select/insert errors `throw` out of the function; the claim is about
completed calls, so the model is the success path, with the insert appending
a fresh row whose generated id is the parameter `newId`. -/

/-- The existence check of `getOrCreateConversation`. -/
def findConversation (db : ChatDB) (itemId ty userId : String) :
    Option Conversation :=
  db.conversations.find? (fun c =>
    c.item_id == itemId && c.type == ty && c.creator_id == userId)

/-- `getOrCreateConversation`, returning the conversation together with the
database after the call. -/
def getOrCreateConversation (db : ChatDB) (userId itemId ty newId : String) :
    Conversation × ChatDB :=
  match findConversation db itemId ty userId with
  | some existing => (existing, db)
  | none =>
    let created : Conversation :=
      { id := newId, item_id := itemId, type := ty, creator_id := userId }
    (created, { db with conversations := db.conversations ++ [created] })

/-- C10: `getOrCreateConversation` is idempotent per (item, type, user).  If
a matching conversation already exists it is returned and the database is
unchanged, and a second call with the same item, type and user (and any
fresh id) returns the conversation of the first call without changing the
database again. -/
theorem claim_C10_getOrCreateConversation_idempotent (db : ChatDB)
    (userId itemId ty newId1 newId2 : String) :
    (∀ c, findConversation db itemId ty userId = some c →
      getOrCreateConversation db userId itemId ty newId1 = (c, db)) ∧
    (getOrCreateConversation
        (getOrCreateConversation db userId itemId ty newId1).2
        userId itemId ty newId2 =
      ((getOrCreateConversation db userId itemId ty newId1).1,
       (getOrCreateConversation db userId itemId ty newId1).2)) := by
  constructor
  · intro c hc
    unfold getOrCreateConversation
    rw [hc]
  · cases hfind : findConversation db itemId ty userId with
    | some c =>
      simp only [getOrCreateConversation, hfind]
    | none =>
      have hfind2 : findConversation
          { db with conversations := db.conversations ++
              [{ id := newId1, item_id := itemId, type := ty,
                 creator_id := userId }] } itemId ty userId =
          some { id := newId1, item_id := itemId, type := ty,
                 creator_id := userId } := by
        unfold findConversation at hfind ⊢
        rw [List.find?_append, hfind]
        simp
      simp only [getOrCreateConversation, hfind, hfind2]

/-- Witness for C10 at a concrete database: the conversation created by the
first call is returned unchanged by the second, and an existing row
short-circuits the insert. -/
theorem claim_C10_getOrCreateConversation_witness :
    (getOrCreateConversation
        { conversations := [{ id := "c0", item_id := "i1",
                              type := "user-to-poster", creator_id := "u1" }],
          profiles := [], items := [], messages := [], notifications := [] }
        "u1" "i1" "user-to-poster" "c9" =
      ({ id := "c0", item_id := "i1", type := "user-to-poster",
         creator_id := "u1" },
       { conversations := [{ id := "c0", item_id := "i1",
                             type := "user-to-poster", creator_id := "u1" }],
         profiles := [], items := [], messages := [], notifications := [] })) ∧
    (getOrCreateConversation
        (getOrCreateConversation
          { conversations := [], profiles := [], items := [], messages := [],
            notifications := [] } "u1" "i1" "user-to-security" "c1").2
        "u1" "i1" "user-to-security" "c2" =
      ((getOrCreateConversation
          { conversations := [], profiles := [], items := [], messages := [],
            notifications := [] } "u1" "i1" "user-to-security" "c1").1,
       (getOrCreateConversation
          { conversations := [], profiles := [], items := [], messages := [],
            notifications := [] } "u1" "i1" "user-to-security" "c1").2)) :=
  ⟨(claim_C10_getOrCreateConversation_idempotent
      { conversations := [{ id := "c0", item_id := "i1",
                            type := "user-to-poster", creator_id := "u1" }],
        profiles := [], items := [], messages := [], notifications := [] }
      "u1" "i1" "user-to-poster" "c9" "unused").1 _ (by decide),
   (claim_C10_getOrCreateConversation_idempotent
      { conversations := [], profiles := [], items := [], messages := [],
        notifications := [] } "u1" "i1" "user-to-security" "c1" "c2").2⟩

/-! ## Claim-resolution workflow (`ManageClaimsClient.handleClaimAction`)

The component holds local state (`itemStatus`, `claims`, `error`); the
database holds the `claims`, `items` and `notifications` tables.  Each
`supabase` write is one list transformation; a write the code checks for
errors is driven by an `Option String` (the error message) in the
environment, a write whose result the code ignores (the notification
insert, the sibling-claim rejections) by a `Bool`/predicate.  `new
Date().toISOString()` is the environment's `now`.  The `isLoading` UI state
is not modelled. -/

/-- A claim row, both as the `claims` table row and as the component's
`ClaimWithClaimerProfile` entry (the description, claim date and joined
claimer profile are never read or written by `handleClaimAction` and are
omitted). -/
structure Claim where
  id : String
  item_id : String
  claimer_id : String
  status : String
  date_resolved : Option String := none
  resolved_by_user_id : Option String := none
  deriving DecidableEq

/-- The database slice `handleClaimAction` touches. -/
structure ClaimsDB where
  claims : List Claim
  items : List Item
  notifications : List Notification
  deriving DecidableEq

/-- The component's local state. -/
structure CState where
  itemStatus : String
  claims : List Claim
  error : Option String := none
  deriving DecidableEq

inductive ClaimAction where
  | approve
  | reject
  deriving DecidableEq

/-- The `${action}` interpolation in the error message. -/
def ClaimAction.text : ClaimAction → String
  | .approve => "approve"
  | .reject => "reject"

/-- Outcomes of the remote calls inside one `handleClaimAction` run. -/
structure ClaimActionEnv where
  now : String
  claimUpdateError : Option String := none
  itemTitleFetchFails : Bool := false
  notifInsertFails : Bool := false
  itemUpdateError : Option String := none
  siblingUpdateFails : String → Bool := fun _ => false

/-- `supabase.from("claims").update({status, date_resolved,
resolved_by_user_id}).eq("id", claimId)`. -/
def updateClaimRow (db : ClaimsDB) (claimId status now uid : String) : ClaimsDB :=
  { db with claims := db.claims.map (fun c =>
      if c.id == claimId then
        { c with status := status, date_resolved := some now,
                 resolved_by_user_id := some uid }
      else c) }

/-- `supabase.from("items").update({status}).eq("id", itemId)`. -/
def updateItemStatus (db : ClaimsDB) (itemId status : String) : ClaimsDB :=
  { db with items := db.items.map (fun it =>
      if it.id == itemId then { it with status := status } else it) }

/-- `supabase.from("notifications").insert(...)`. -/
def insertClaimNotification (db : ClaimsDB) (n : Notification) : ClaimsDB :=
  { db with notifications := db.notifications ++ [n] }

/-- The claimer-notification block of `handleClaimAction` (lines 79-103):
if the acted-on claim is found in the component's list, fetch the item title
(an error leaves it empty) and insert a `claim_update` notification; the
insert's result is ignored. -/
def claimNotificationStep (env : ClaimActionEnv) (itemId : String)
    (action : ClaimAction) (claimFound : Option Claim) (db1 : ClaimsDB) :
    ClaimsDB :=
  match claimFound with
  | none => db1
  | some claim =>
    let itemTitle :=
      if env.itemTitleFetchFails then ""
      else
        match db1.items.find? (fun it => it.id == itemId) with
        | some it => it.title
        | none => ""
    if env.notifInsertFails then db1
    else
      insertClaimNotification db1
        { user_id := claim.claimer_id, item_id := some itemId,
          claim_id := some claim.id, type := "claim_update",
          title := "Your claim was " ++
            (if action == ClaimAction.approve then "approved" else "rejected"),
          message := "Your claim for item \"" ++ itemTitle ++ "\" was " ++
            (if action == ClaimAction.approve then "approved" else "rejected") ++
            "." }

/-- `handleClaimAction` (ManageClaimsClient, lines 47-154), returning the
component state and the database after the run. -/
def handleClaimAction (env : ClaimActionEnv) (currentUserId : Option String)
    (isOwner : Bool) (itemId : String) (comp : CState) (db : ClaimsDB)
    (claimId : String) (action : ClaimAction) : CState × ClaimsDB :=
  match currentUserId with
  | none => (comp, db)
  | some uid =>
    if uid == "" || !isOwner then (comp, db)
    else if comp.itemStatus == "claimed" && action == ClaimAction.approve then
      ({ comp with error := some "This item has already been marked as claimed." }, db)
    else
      let comp0 := { comp with error := none }
      let newClaimStatus :=
        if action == ClaimAction.approve then "approved" else "rejected"
      match env.claimUpdateError with
      | some msg =>
        ({ comp0 with
            error := some ("Failed to " ++ action.text ++ " claim: " ++ msg) }, db)
      | none =>
        let db1 := updateClaimRow db claimId newClaimStatus env.now uid
        let db2 := claimNotificationStep env itemId action
          (comp.claims.find? (fun c => c.id == claimId)) db1
        let next :=
          if action == ClaimAction.approve then
            match env.itemUpdateError with
            | some msg =>
              ({ comp0 with
                  error := some ("Failed to update item status: " ++ msg) }, db2)
            | none =>
              let db3 := updateItemStatus db2 itemId "claimed"
              let comp1 := { comp0 with itemStatus := "claimed" }
              let otherPending := comp.claims.filter (fun c =>
                !(c.id == claimId) && c.status == "pending")
              let db4 := otherPending.foldl (fun d c =>
                if env.siblingUpdateFails c.id then d
                else updateClaimRow d c.id "rejected" env.now uid) db3
              (comp1, db4)
          else (comp0, db2)
        ({ next.1 with claims := comp.claims.map (fun c =>
            if c.id == claimId then
              { c with status := newClaimStatus, date_resolved := some env.now }
            else if action == ClaimAction.approve && c.status == "pending" then
              { c with status := "rejected", date_resolved := some env.now }
            else c) },
         next.2)

/-- One invocation in a sequence of `handleClaimAction` calls. -/
structure ClaimStep where
  claimId : String
  action : ClaimAction
  env : ClaimActionEnv

/-- A sequence of `handleClaimAction` invocations against the same item from
the same session. -/
def runClaimActions (currentUserId : Option String) (isOwner : Bool)
    (itemId : String) (start : CState × ClaimsDB) (steps : List ClaimStep) :
    CState × ClaimsDB :=
  steps.foldl (fun s step =>
    handleClaimAction step.env currentUserId isOwner itemId s.1 s.2
      step.claimId step.action) start

/-- The number of approved claim rows in the database. -/
def countApproved (db : ClaimsDB) : Nat :=
  (db.claims.filter (fun c => c.status == "approved")).length

/-! ## Characterizing the sibling-rejection loop -/

/-- The rejected update applied to a claim row. -/
def rejectedUpdate (env : ClaimActionEnv) (uid : String) (r : Claim) : Claim :=
  { r with status := "rejected", date_resolved := some env.now,
           resolved_by_user_id := some uid }

lemma foldl_reject_claims (env : ClaimActionEnv) (uid : String)
    (L : List Claim) (hfail : ∀ c ∈ L, env.siblingUpdateFails c.id = false) :
    ∀ db : ClaimsDB,
      (L.foldl (fun d c =>
        if env.siblingUpdateFails c.id then d
        else updateClaimRow d c.id "rejected" env.now uid) db) =
      { db with claims := db.claims.map (fun r =>
          if L.any (fun c => r.id == c.id) then rejectedUpdate env uid r
          else r) } := by
  induction L with
  | nil =>
    intro db
    simp
  | cons c L ih =>
    intro db
    rw [List.foldl_cons]
    have hc : env.siblingUpdateFails c.id = false := hfail c (List.mem_cons_self c L)
    rw [hc]
    simp only [Bool.false_eq_true, if_false]
    rw [ih (fun x hx => hfail x (List.mem_cons_of_mem c hx))]
    unfold updateClaimRow
    simp only [List.map_map]
    congr 1
    apply List.map_congr_left
    intro r _
    simp only [Function.comp]
    cases hid : (r.id == c.id) with
    | true =>
      simp only [hid, List.any_cons, Bool.true_or, if_true]
      simp [rejectedUpdate]
    | false =>
      simp only [hid, List.any_cons, Bool.false_or]
      rfl

/-- `Forall₂` between a list and its image under a pointwise-related map. -/
lemma forall2_of_map {α : Type} (l : List α) (f : α → α) (R : α → α → Prop)
    (h : ∀ a ∈ l, R a (f a)) : List.Forall₂ R l (l.map f) := by
  induction l with
  | nil => exact List.Forall₂.nil
  | cons a l ih =>
    exact List.Forall₂.cons (h a (List.mem_cons_self a l))
      (ih (fun x hx => h x (List.mem_cons_of_mem a hx)))

/-- C1: the happy-path approval.  When the owner approves a pending claim on
an item whose status is not yet `'claimed'` and every remote write succeeds,
the claim row becomes `'approved'`, the item row becomes `'claimed'`, every
other claim row of the item that was `'pending'` becomes `'rejected'`, and a
`'claim_update'` notification for the claimer is appended. -/
theorem claim_C1_approve_resolution
    (env : ClaimActionEnv) (uid itemId claimId : String) (comp : CState)
    (db : ClaimsDB) (lclaim : Claim)
    (huid : uid ≠ "")
    (hstatus : comp.itemStatus ≠ "claimed")
    (hclaimUpd : env.claimUpdateError = none)
    (hitemUpd : env.itemUpdateError = none)
    (hnotif : env.notifInsertFails = false)
    (hsibling : ∀ cid, env.siblingUpdateFails cid = false)
    (hfound : comp.claims.find? (fun c => c.id == claimId) = some lclaim)
    (hpending : lclaim.status = "pending")
    (hcorr : ∀ r ∈ db.claims, r.item_id = itemId →
      ∃ l ∈ comp.claims, l.id = r.id ∧ l.status = r.status) :
    ∃ compOut dbOut,
      handleClaimAction env (some uid) true itemId comp db claimId
        ClaimAction.approve = (compOut, dbOut) ∧
      List.Forall₂ (fun old new =>
          (old.id = claimId →
            new = { old with
                    status := "approved",
                    date_resolved := some env.now,
                    resolved_by_user_id := some uid }) ∧
          (old.id ≠ claimId → old.item_id = itemId → old.status = "pending" →
            new = rejectedUpdate env uid old))
        db.claims dbOut.claims ∧
      List.Forall₂ (fun old new =>
          (old.id = itemId → new = { old with status := "claimed" }) ∧
          (old.id ≠ itemId → new = old))
        db.items dbOut.items ∧
      (∃ ttl msgtext, dbOut.notifications = db.notifications ++
        [{ user_id := lclaim.claimer_id, item_id := some itemId,
           claim_id := some lclaim.id, type := "claim_update",
           title := ttl, message := msgtext }]) := by
  have hbeq : (uid == "") = false := beq_eq_false_iff_ne.mpr huid
  have hst : (comp.itemStatus == "claimed") = false := beq_eq_false_iff_ne.mpr hstatus
  unfold handleClaimAction
  simp only [hbeq, hst, hclaimUpd, hitemUpd, hnotif, hfound, Bool.not_true,
    Bool.or_false, Bool.false_and, Bool.false_eq_true, if_false,
    beq_self_eq_true, Bool.and_true, Bool.and_false, if_true]
  rw [foldl_reject_claims env uid _ (fun c _ => hsibling c.id)]
  simp only [claimNotificationStep, hnotif, Bool.false_eq_true, if_false,
    updateClaimRow, updateItemStatus, insertClaimNotification]
  refine ⟨_, _, rfl, ?_, ?_, ?_⟩
  · rw [List.map_map]
    apply forall2_of_map
    intro r hr
    constructor
    · intro hid
      have hany : ((comp.claims.filter fun c =>
          !(c.id == claimId) && c.status == "pending").any
            fun c => claimId == c.id) = false := by
        rw [List.any_eq_false]
        intro c hc
        rw [List.mem_filter, Bool.and_eq_true] at hc
        obtain ⟨-, hne', -⟩ := hc
        simp only [Bool.not_eq_true'] at hne'
        have hcne : c.id ≠ claimId := by simpa using hne'
        intro hEq
        exact hcne (eq_of_beq hEq).symm
      simp [Function.comp, hid, hany]
    · intro hne hitem hpend
      have hb : (r.id == claimId) = false := beq_eq_false_iff_ne.mpr hne
      obtain ⟨l, hlmem, hlid, hlstat⟩ := hcorr r hr hitem
      have hlP : l ∈ comp.claims.filter (fun c =>
          !(c.id == claimId) && c.status == "pending") := by
        rw [List.mem_filter, Bool.and_eq_true]
        refine ⟨hlmem, ?_, ?_⟩
        · have : (l.id == claimId) = false :=
            beq_eq_false_iff_ne.mpr (hlid ▸ hne)
          simp [this]
        · simp [hlstat, hpend]
      have hany : ((comp.claims.filter fun c =>
          !(c.id == claimId) && c.status == "pending").any
            fun c => r.id == c.id) = true := by
        rw [List.any_eq_true]
        exact ⟨l, hlP, by simp [hlid]⟩
      simp [Function.comp, hb, hany, rejectedUpdate]
  · apply forall2_of_map
    intro it _
    constructor
    · intro hid
      simp [hid]
    · intro hne
      simp [beq_eq_false_iff_ne.mpr hne]
  · exact ⟨_, _, rfl⟩

/-! ### Concrete fixtures for the claim-resolution theorems -/

def sampleClaim1 : Claim :=
  { id := "cl1", item_id := "item1", claimer_id := "u1", status := "pending" }

def sampleClaim2 : Claim :=
  { id := "cl2", item_id := "item1", claimer_id := "u2", status := "pending" }

def sampleItem : Item :=
  { id := "item1", user_id := "owner", title := "Wallet", status := "lost" }

def sampleClaimsDB : ClaimsDB :=
  { claims := [sampleClaim1, sampleClaim2], items := [sampleItem],
    notifications := [] }

def sampleCState : CState :=
  { itemStatus := "lost", claims := [sampleClaim1, sampleClaim2] }

/-- Witness for C1: the owner approves the pending claim `cl1` of `item1`
while `cl2` is also pending and every write succeeds. -/
theorem claim_C1_approve_resolution_witness :
    ∃ compOut dbOut,
      handleClaimAction { now := "t1" } (some "owner") true "item1"
        sampleCState sampleClaimsDB "cl1" ClaimAction.approve =
        (compOut, dbOut) ∧
      List.Forall₂ (fun old new =>
          (old.id = "cl1" →
            new = { old with
                    status := "approved",
                    date_resolved := some (ClaimActionEnv.now { now := "t1" }),
                    resolved_by_user_id := some "owner" }) ∧
          (old.id ≠ "cl1" → old.item_id = "item1" → old.status = "pending" →
            new = rejectedUpdate { now := "t1" } "owner" old))
        sampleClaimsDB.claims dbOut.claims ∧
      List.Forall₂ (fun old new =>
          (old.id = "item1" → new = { old with status := "claimed" }) ∧
          (old.id ≠ "item1" → new = old))
        sampleClaimsDB.items dbOut.items ∧
      (∃ ttl msgtext, dbOut.notifications =
        sampleClaimsDB.notifications ++
        [{ user_id := sampleClaim1.claimer_id, item_id := some "item1",
           claim_id := some sampleClaim1.id, type := "claim_update",
           title := ttl, message := msgtext }]) :=
  claim_C1_approve_resolution { now := "t1" } "owner" "item1" "cl1"
    sampleCState sampleClaimsDB sampleClaim1 (by decide) (by decide) rfl rfl
    rfl (fun _ => rfl) (by decide) rfl (by decide)

/-- C2: no transactional guarantee.  If the claim row was successfully set
to `'approved'` but the item-status update fails, the claim row stays
`'approved'`, every other claim row (pending siblings included) is left
untouched, the item table is unchanged, no rollback or retry happens, and
an inline error message is set. -/
theorem claim_C2_no_rollback
    (env : ClaimActionEnv) (uid itemId claimId msg : String) (comp : CState)
    (db : ClaimsDB) (lclaim : Claim)
    (huid : uid ≠ "")
    (hstatus : comp.itemStatus ≠ "claimed")
    (hclaimUpd : env.claimUpdateError = none)
    (hitemUpd : env.itemUpdateError = some msg)
    (hnotif : env.notifInsertFails = false)
    (hfound : comp.claims.find? (fun c => c.id == claimId) = some lclaim) :
    ∃ compOut dbOut,
      handleClaimAction env (some uid) true itemId comp db claimId
        ClaimAction.approve = (compOut, dbOut) ∧
      List.Forall₂ (fun old new =>
          (old.id = claimId →
            new = { old with
                    status := "approved",
                    date_resolved := some env.now,
                    resolved_by_user_id := some uid }) ∧
          (old.id ≠ claimId → new = old))
        db.claims dbOut.claims ∧
      dbOut.items = db.items ∧
      compOut.error = some ("Failed to update item status: " ++ msg) ∧
      (∃ ttl msgtext, dbOut.notifications = db.notifications ++
        [{ user_id := lclaim.claimer_id, item_id := some itemId,
           claim_id := some lclaim.id, type := "claim_update",
           title := ttl, message := msgtext }]) := by
  have hbeq : (uid == "") = false := beq_eq_false_iff_ne.mpr huid
  have hst : (comp.itemStatus == "claimed") = false := beq_eq_false_iff_ne.mpr hstatus
  unfold handleClaimAction
  simp only [hbeq, hst, hclaimUpd, hitemUpd, hnotif, hfound, Bool.not_true,
    Bool.or_false, Bool.false_and, Bool.false_eq_true, if_false,
    beq_self_eq_true, Bool.and_true, Bool.and_false, if_true]
  simp only [claimNotificationStep, hnotif, Bool.false_eq_true, if_false,
    updateClaimRow, insertClaimNotification]
  refine ⟨_, _, rfl, ?_, rfl, rfl, ⟨_, _, rfl⟩⟩
  apply forall2_of_map
  intro r _
  constructor
  · intro hid
    simp [hid]
  · intro hne
    simp [beq_eq_false_iff_ne.mpr hne]

/-- Witness for C2: the item-status update fails with message `boom`; the
approved claim stays approved, the sibling pending claim stays pending. -/
theorem claim_C2_no_rollback_witness :
    ∃ compOut dbOut,
      handleClaimAction { now := "t1", itemUpdateError := some "boom" }
        (some "owner") true "item1" sampleCState sampleClaimsDB "cl1"
        ClaimAction.approve = (compOut, dbOut) ∧
      List.Forall₂ (fun old new =>
          (old.id = "cl1" →
            new = { old with
                    status := "approved",
                    date_resolved := some (ClaimActionEnv.now
                      { now := "t1", itemUpdateError := some "boom" }),
                    resolved_by_user_id := some "owner" }) ∧
          (old.id ≠ "cl1" → new = old))
        sampleClaimsDB.claims dbOut.claims ∧
      dbOut.items = sampleClaimsDB.items ∧
      compOut.error = some ("Failed to update item status: " ++ "boom") ∧
      (∃ ttl msgtext, dbOut.notifications = sampleClaimsDB.notifications ++
        [{ user_id := sampleClaim1.claimer_id, item_id := some "item1",
           claim_id := some sampleClaim1.id, type := "claim_update",
           title := ttl, message := msgtext }]) :=
  claim_C2_no_rollback { now := "t1", itemUpdateError := some "boom" }
    "owner" "item1" "cl1" "boom" sampleCState sampleClaimsDB sampleClaim1
    (by decide) (by decide) rfl rfl rfl (by decide)

/-! ## Counting approved claims (for C9) -/

lemma length_filter_map_le_add {α : Type} (l : List α) (f : α → α)
    (p q : α → Bool) (h : ∀ x, p (f x) = true → p x = true ∨ q x = true) :
    ((l.map f).filter p).length ≤ (l.filter p).length + (l.filter q).length := by
  induction l with
  | nil => simp
  | cons a l ih =>
    simp only [List.map_cons, List.filter_cons]
    cases hpa : p (f a) with
    | true =>
      cases hqa : p a with
      | true =>
        cases hra : q a <;> simp [hpa, hqa, hra] <;> omega
      | false =>
        have hra : q a = true := by
          rcases h a hpa with h1 | h1
          · rw [hqa] at h1; cases h1
          · exact h1
        simp [hpa, hqa, hra]
        omega
    | false =>
      cases hqa : p a <;> cases hra : q a <;> simp [hpa, hqa, hra] <;> omega

lemma length_filter_beq_id_le_one (l : List Claim) (cid : String)
    (h : (l.map Claim.id).Nodup) :
    (l.filter (fun c => c.id == cid)).length ≤ 1 := by
  induction l with
  | nil => simp
  | cons a l ih =>
    rw [List.map_cons, List.nodup_cons] at h
    obtain ⟨hna, hl⟩ := h
    rw [List.filter_cons]
    cases ha : (a.id == cid) with
    | true =>
      have hzero : (l.filter (fun c => c.id == cid)).length = 0 := by
        rw [List.length_eq_zero, List.filter_eq_nil_iff]
        intro x hx hxe
        apply hna
        rw [List.mem_map]
        exact ⟨x, hx, by rw [eq_of_beq hxe, eq_of_beq ha]⟩
      simp [hzero]
    | false =>
      simpa using ih hl

lemma countApproved_update_rejected_le (db : ClaimsDB) (cid now uid : String) :
    countApproved (updateClaimRow db cid "rejected" now uid) ≤
      countApproved db := by
  unfold countApproved updateClaimRow
  have h := length_filter_map_le_add db.claims
    (fun c => if c.id == cid then
      { c with status := "rejected", date_resolved := some now,
               resolved_by_user_id := some uid }
      else c)
    (fun c => c.status == "approved") (fun _ => false) ?_
  · simpa using h
  · intro x hx
    simp only at hx ⊢
    cases hid : (x.id == cid) with
    | true =>
      rw [hid] at hx
      simp at hx
    | false =>
      rw [hid] at hx
      simp only [Bool.false_eq_true, if_false] at hx
      exact Or.inl hx

lemma countApproved_update_approved_le (db : ClaimsDB) (cid now uid : String) :
    countApproved (updateClaimRow db cid "approved" now uid) ≤
      countApproved db + (db.claims.filter (fun c => c.id == cid)).length := by
  unfold countApproved updateClaimRow
  apply length_filter_map_le_add
  intro x hx
  simp only at hx ⊢
  cases hid : (x.id == cid) with
  | true => exact Or.inr rfl
  | false =>
    rw [hid] at hx
    simp only [Bool.false_eq_true, if_false] at hx
    exact Or.inl hx

lemma countApproved_foldl_reject_le (env : ClaimActionEnv) (uid : String)
    (L : List Claim) :
    ∀ db : ClaimsDB,
      countApproved (L.foldl (fun d c =>
        if env.siblingUpdateFails c.id then d
        else updateClaimRow d c.id "rejected" env.now uid) db) ≤
      countApproved db := by
  induction L with
  | nil => exact fun db => le_refl _
  | cons c L ih =>
    intro db
    simp only [List.foldl_cons]
    cases h : env.siblingUpdateFails c.id with
    | true => simpa using ih db
    | false =>
      simp only [Bool.false_eq_true, if_false]
      exact (ih _).trans (countApproved_update_rejected_le db c.id env.now uid)

lemma map_id_updateClaimRow (db : ClaimsDB) (cid st now uid : String) :
    (updateClaimRow db cid st now uid).claims.map Claim.id =
      db.claims.map Claim.id := by
  unfold updateClaimRow
  simp only [List.map_map]
  apply List.map_congr_left
  intro c _
  simp only [Function.comp]
  cases h : (c.id == cid) <;> simp [h]

lemma map_id_foldl_reject (env : ClaimActionEnv) (uid : String)
    (L : List Claim) :
    ∀ db : ClaimsDB,
      (L.foldl (fun d c =>
        if env.siblingUpdateFails c.id then d
        else updateClaimRow d c.id "rejected" env.now uid) db).claims.map
          Claim.id =
      db.claims.map Claim.id := by
  induction L with
  | nil => exact fun db => rfl
  | cons c L ih =>
    intro db
    simp only [List.foldl_cons]
    cases h : env.siblingUpdateFails c.id with
    | true => simpa using ih db
    | false =>
      simp only [Bool.false_eq_true, if_false]
      rw [ih _, map_id_updateClaimRow]

lemma claims_claimNotificationStep (env : ClaimActionEnv) (itemId : String)
    (action : ClaimAction) (o : Option Claim) (db1 : ClaimsDB) :
    (claimNotificationStep env itemId action o db1).claims = db1.claims := by
  unfold claimNotificationStep
  cases o with
  | none => rfl
  | some claim =>
    cases h : env.notifInsertFails with
    | true => simp [h]
    | false => simp [h, insertClaimNotification]

lemma countApproved_claimNotificationStep (env : ClaimActionEnv)
    (itemId : String) (action : ClaimAction) (o : Option Claim)
    (db1 : ClaimsDB) :
    countApproved (claimNotificationStep env itemId action o db1) =
      countApproved db1 := by
  unfold countApproved
  rw [claims_claimNotificationStep]

lemma claims_updateItemStatus (d : ClaimsDB) (i s : String) :
    (updateItemStatus d i s).claims = d.claims := rfl

lemma countApproved_updateItemStatus (d : ClaimsDB) (i s : String) :
    countApproved (updateItemStatus d i s) = countApproved d := rfl

/-- One `handleClaimAction` invocation whose item-status update (if reached)
succeeds preserves the invariant "no approved claim while the component
still believes the item unclaimed, and at most one approved claim". -/
lemma handleClaimAction_inv (env : ClaimActionEnv) (cu : Option String)
    (io : Bool) (itemId claimId : String) (comp : CState) (db : ClaimsDB)
    (action : ClaimAction)
    (hitem : env.itemUpdateError = none)
    (hnd : (db.claims.map Claim.id).Nodup)
    (h0 : comp.itemStatus ≠ "claimed" → countApproved db = 0)
    (h1 : countApproved db ≤ 1) :
    (((handleClaimAction env cu io itemId comp db claimId action).2.claims.map
        Claim.id).Nodup) ∧
    ((handleClaimAction env cu io itemId comp db claimId action).1.itemStatus ≠
        "claimed" →
      countApproved
        (handleClaimAction env cu io itemId comp db claimId action).2 = 0) ∧
    countApproved
      (handleClaimAction env cu io itemId comp db claimId action).2 ≤ 1 := by
  cases cu with
  | none => exact ⟨hnd, h0, h1⟩
  | some uid =>
    unfold handleClaimAction
    by_cases hg1 : (uid == "" || !io) = true
    · simp only [hg1, if_true]
      exact ⟨hnd, h0, h1⟩
    · rw [Bool.not_eq_true] at hg1
      simp only [hg1, Bool.false_eq_true, if_false]
      by_cases hg2 :
          (comp.itemStatus == "claimed" && action == ClaimAction.approve) = true
      · simp only [hg2, if_true]
        exact ⟨hnd, h0, h1⟩
      · rw [Bool.not_eq_true] at hg2
        simp only [hg2, Bool.false_eq_true, if_false]
        cases hcu : env.claimUpdateError with
        | some msg =>
          simp only [hcu]
          exact ⟨hnd, h0, h1⟩
        | none =>
          simp only [hcu, hitem]
          cases action with
          | reject =>
            simp only [show (ClaimAction.reject == ClaimAction.approve) = false
              from rfl, Bool.false_eq_true, if_false]
            refine ⟨?_, ?_, ?_⟩
            · rw [claims_claimNotificationStep, map_id_updateClaimRow]
              exact hnd
            · intro hne
              rw [countApproved_claimNotificationStep]
              have hle := countApproved_update_rejected_le db claimId env.now uid
              have hz := h0 hne
              omega
            · rw [countApproved_claimNotificationStep]
              exact (countApproved_update_rejected_le db claimId env.now
                uid).trans h1
          | approve =>
            simp only [show (ClaimAction.approve == ClaimAction.approve) = true
              from rfl, if_true]
            have hne : comp.itemStatus ≠ "claimed" := by
              intro he
              rw [he] at hg2
              simp at hg2
            have hz : countApproved db = 0 := h0 hne
            have hfold := countApproved_foldl_reject_le env uid
              (comp.claims.filter (fun c =>
                !(c.id == claimId) && c.status == "pending"))
            have hmap := map_id_foldl_reject env uid
              (comp.claims.filter (fun c =>
                !(c.id == claimId) && c.status == "pending"))
            refine ⟨?_, ?_, ?_⟩
            · rw [hmap, claims_updateItemStatus, claims_claimNotificationStep,
                map_id_updateClaimRow]
              exact hnd
            · intro hne'
              exact absurd rfl hne'
            · have hstep := hfold (updateItemStatus
                (claimNotificationStep env itemId ClaimAction.approve
                  (comp.claims.find? (fun c => c.id == claimId))
                  (updateClaimRow db claimId "approved" env.now uid))
                itemId "claimed")
              rw [countApproved_updateItemStatus,
                countApproved_claimNotificationStep] at hstep
              have h2 := countApproved_update_approved_le db claimId env.now uid
              have h3 := length_filter_beq_id_le_one db.claims claimId hnd
              omega

lemma runClaimActions_inv (cu : Option String) (io : Bool) (itemId : String)
    (steps : List ClaimStep) :
    ∀ comp db, (∀ st ∈ steps, st.env.itemUpdateError = none) →
      (db.claims.map Claim.id).Nodup →
      (comp.itemStatus ≠ "claimed" → countApproved db = 0) →
      countApproved db ≤ 1 →
      countApproved (runClaimActions cu io itemId (comp, db) steps).2 ≤ 1 := by
  induction steps with
  | nil => exact fun comp db _ _ _ h1 => h1
  | cons st steps ih =>
    intro comp db hsteps hnd h0 h1
    obtain ⟨hnd', h0', h1'⟩ := handleClaimAction_inv st.env cu io itemId
      st.claimId comp db st.action (hsteps st (List.mem_cons_self st steps))
      hnd h0 h1
    have h2 := ih
      (handleClaimAction st.env cu io itemId comp db st.claimId st.action).1
      (handleClaimAction st.env cu io itemId comp db st.claimId st.action).2
      (fun x hx => hsteps x (List.mem_cons_of_mem st hx)) hnd' h0' h1'
    unfold runClaimActions at h2 ⊢
    rw [List.foldl_cons]
    rw [Prod.mk.eta] at h2
    exact h2

/-- C9 counterexample: two claims of the same item can both be moved to
`'approved'` through the component.  The owner approves `cl1` but the
item-status update fails, so the component's local item status stays
`"lost"`; a second approval of `cl2` then passes the guard, leaving both
claim rows `'approved'` in the database. -/
theorem claim_C9_counterexample :
    ((runClaimActions (some "owner") true "item1"
        (sampleCState, sampleClaimsDB)
        [{ claimId := "cl1", action := ClaimAction.approve,
           env := { now := "t1", itemUpdateError := some "boom" } },
         { claimId := "cl2", action := ClaimAction.approve,
           env := { now := "t2" } }]).2.claims.filter
      (fun c => c.item_id == "item1" && c.status == "approved")).length = 2 := by
  decide

/-- C9 amended: (a) when the component's item status is already `'claimed'`,
an approve invocation performs no database write at all and only sets the
local error message; (b) in any sequence of invocations in which every
reached item-status update succeeds, starting from a database with distinct
claim ids and no approved claim, at most one claim row is ever `'approved'`. -/
theorem claim_C9_guard_and_single_approval (env : ClaimActionEnv)
    (uid itemId claimId : String) (comp : CState) (db : ClaimsDB)
    (steps : List ClaimStep) (cu : Option String) (io : Bool) :
    (uid ≠ "" → comp.itemStatus = "claimed" →
      handleClaimAction env (some uid) true itemId comp db claimId
        ClaimAction.approve =
      ({ comp with
         error := some "This item has already been marked as claimed." },
       db)) ∧
    ((∀ st ∈ steps, st.env.itemUpdateError = none) →
      (db.claims.map Claim.id).Nodup →
      countApproved db = 0 →
      countApproved (runClaimActions cu io itemId (comp, db) steps).2 ≤ 1) := by
  constructor
  · intro huid hclaimed
    have hbeq : (uid == "") = false := beq_eq_false_iff_ne.mpr huid
    unfold handleClaimAction
    simp only [hbeq, Bool.not_true, Bool.or_false, Bool.false_eq_true,
      if_false, hclaimed, beq_self_eq_true, Bool.and_self, if_true,
      show (ClaimAction.approve == ClaimAction.approve) = true from rfl]
  · intro hsteps hnd h0
    exact runClaimActions_inv cu io itemId steps comp db hsteps hnd
      (fun _ => h0) (by omega)

/-- A component state that already believes the item claimed. -/
def sampleClaimedCState : CState :=
  { itemStatus := "claimed", claims := [sampleClaim1, sampleClaim2] }

/-- Witness for the amended C9: the guard blocks an approval of an
already-claimed item without touching the database, and a concrete
all-writes-succeed trace ends with at most one approved claim. -/
theorem claim_C9_guard_and_single_approval_witness :
    (handleClaimAction { now := "t1" } (some "owner") true "item1"
        sampleClaimedCState sampleClaimsDB "cl1" ClaimAction.approve =
      ({ sampleClaimedCState with
         error := some "This item has already been marked as claimed." },
       sampleClaimsDB)) ∧
    countApproved (runClaimActions (some "owner") true "item1"
      (sampleCState, sampleClaimsDB)
      [{ claimId := "cl1", action := ClaimAction.approve,
         env := { now := "t1" } },
       { claimId := "cl2", action := ClaimAction.approve,
         env := { now := "t2" } }]).2 ≤ 1 :=
  ⟨(claim_C9_guard_and_single_approval { now := "t1" } "owner" "item1" "cl1"
      sampleClaimedCState sampleClaimsDB [] none false).1 (by decide) rfl,
   (claim_C9_guard_and_single_approval { now := "t1" } "owner" "item1" "cl1"
      sampleCState sampleClaimsDB
      [{ claimId := "cl1", action := ClaimAction.approve,
         env := { now := "t1" } },
       { claimId := "cl2", action := ClaimAction.approve,
         env := { now := "t2" } }] (some "owner") true).2
      (by intro st hst; fin_cases hst <;> rfl) (by decide) (by decide)⟩

/-! ## C3: the item-status vocabulary and the admin edit modal

`types/database.ts` declares `ItemStatus` as exactly
lost/found/claimed/archived, but the admin dashboard passes
`"resolved" as ItemStatus` into the edit modal's status dropdown and writes
the selected value back with `supabase.from("items").update({... status
...})`. -/

/-- The `statuses` prop the admin page passes to `EditItemModal`
(admin/page.tsx lines 1415-1423), including the `"resolved" as ItemStatus`
cast. -/
def adminEditStatuses : List String :=
  ["lost", "found", "claimed", "resolved", "archived"]

/-- The fields the edit modal's `onSave` writes (admin/page.tsx lines
1384-1391). -/
structure AdminItemUpdate where
  title : String
  description : Option String
  status : String
  category : Option String

/-- The item-table write performed by the admin edit modal's `onSave`:
`update({title, description, status, category}).eq("id", editingItem.id)`. -/
def adminSaveItem (items : List Item) (itemId : String)
    (upd : AdminItemUpdate) : List Item :=
  items.map (fun it =>
    if it.id == itemId then
      { it with title := upd.title, description := upd.description,
                status := upd.status, category := upd.category }
    else it)

/-- C3 fails on the code: `"resolved"` is offered by the admin edit modal's
status dropdown although it is outside the declared `ItemStatus` set, and
saving it writes an item row whose status is outside
lost/found/claimed/archived. -/
theorem claim_C3_resolved_escapes_item_status :
    "resolved" ∈ adminEditStatuses ∧
    "resolved" ∉ ItemStatusValues ∧
    ∃ it ∈ adminSaveItem
        [{ id := "item1", user_id := "owner", title := "Wallet",
           status := "lost" }] "item1"
        { title := "Wallet", description := none, status := "resolved",
          category := none },
      it.status ∉ ItemStatusValues := by decide

/-! ## C8: `sendMessage` (client.ts lines 67-174)

The storage uploads (lines 75-89) happen before any database write and
`throw` on failure; the metadata they produce is the `uploaded` parameter.
The message insert is checked (`if (error) throw error`); everything after
it sits in a `try/catch`, so no failure there can prevent the function from
returning the inserted message. -/

/-- Outcomes of the remote calls inside one `sendMessage` run. -/
structure SendEnv where
  newMessageId : String
  insertError : Option String := none
  convFetchFails : Bool := false
  senderRoleFetchFails : Bool := false
  adminFetchFails : Bool := false
  senderNameFetchFails : Bool := false
  notifInsertFails : Bool := false

/-- The recipient determination of `sendMessage` (lines 117-147).  For
`user-to-poster`: the item owner if the sender created the conversation,
otherwise the creator (`none` models the `conversation.item` join being
null, which throws inside the `try/catch`).  For `user-to-security`: the
creator if the sender's profile role is `admin`, otherwise the first admin
profile. -/
def recipientOf (db : ChatDB) (env : SendEnv) (conv : Conversation)
    (senderId : String) : Option String :=
  if conv.type == "user-to-poster" then
    if conv.creator_id == senderId then
      (db.items.find? (fun it => it.id == conv.item_id)).map Item.user_id
    else some conv.creator_id
  else if conv.type == "user-to-security" then
    let senderRole :=
      if env.senderRoleFetchFails then none
      else (db.profiles.find? (fun p => p.id == senderId)).bind Profile.role
    if senderRole == some "admin" then some conv.creator_id
    else if env.adminFetchFails then none
    else (db.profiles.find? (fun p => p.role == some "admin")).map Profile.id
  else none

/-- The notification block of `sendMessage` (lines 103-171), entirely inside
`try/catch`: a notification row is inserted only when the conversation is
found, a recipient is determined, is truthy and differs from the sender; the
message text reads `conversation.item.title`, so a missing joined item
throws (caught) before the insert. -/
def sendMessageNotification (db : ChatDB) (env : SendEnv)
    (conversationId senderId : String) : ChatDB :=
  match (if env.convFetchFails then none
      else db.conversations.find? (fun c => c.id == conversationId)) with
  | none => db
  | some conv =>
    match recipientOf db env conv senderId with
    | none => db
    | some recipientId =>
      if !(recipientId == "") && !(recipientId == senderId) then
        match db.items.find? (fun it => it.id == conv.item_id) with
        | none => db
        | some item =>
          if env.notifInsertFails then db
          else
            let senderName :=
              if env.senderNameFetchFails then "Someone"
              else
                match (db.profiles.find? (fun p => p.id == senderId)).bind
                    Profile.full_name with
                | some n => if n == "" then "Someone" else n
                | none => "Someone"
            { db with notifications := db.notifications ++
                [{ user_id := recipientId, item_id := some conv.item_id,
                   type := "new_message", title := "New Message",
                   message := senderName ++ " sent you a message about \"" ++
                     item.title ++ "\"" }] }
      else db

/-- `sendMessage`: insert the message (throwing on error), then attempt the
recipient notification, then return the inserted message. -/
def sendMessage (db : ChatDB) (env : SendEnv)
    (conversationId senderId body : String)
    (uploaded : List MessageAttachment) : Except String (Message × ChatDB) :=
  match env.insertError with
  | some e => .error e
  | none =>
    let msg : Message :=
      { id := env.newMessageId, conversation_id := conversationId,
        sender_id := senderId, body := body, attachments := uploaded }
    let db1 := { db with messages := db.messages ++ [msg] }
    .ok (msg, sendMessageNotification db1 env conversationId senderId)

lemma messages_sendMessageNotification (db : ChatDB) (env : SendEnv)
    (conversationId senderId : String) :
    (sendMessageNotification db env conversationId senderId).messages =
      db.messages := by
  unfold sendMessageNotification
  cases hconv : (if env.convFetchFails then none
      else db.conversations.find? (fun c => c.id == conversationId)) with
  | none => rfl
  | some conv =>
    simp only []
    cases recipientOf db env conv senderId with
    | none => rfl
    | some recipientId =>
      simp only []
      by_cases hg : (!(recipientId == "") && !(recipientId == senderId)) = true
      · rw [if_pos hg]
        cases db.items.find? (fun it => it.id == conv.item_id) with
        | none => rfl
        | some item =>
          simp only []
          cases env.notifInsertFails with
          | true => rfl
          | false => rfl
      · rw [if_neg hg]

lemma sendMessageNotification_spec (db : ChatDB) (env : SendEnv)
    (conversationId senderId : String) :
    (sendMessageNotification db env conversationId senderId).notifications =
        db.notifications ∨
      ∃ conv recipientId,
        db.conversations.find? (fun c => c.id == conversationId) =
          some conv ∧
        recipientOf db env conv senderId = some recipientId ∧
        recipientId ≠ "" ∧ recipientId ≠ senderId ∧
        ∃ n : Notification, n.user_id = recipientId ∧
          n.type = "new_message" ∧
          (sendMessageNotification db env conversationId
              senderId).notifications = db.notifications ++ [n] := by
  unfold sendMessageNotification
  cases hcf : env.convFetchFails with
  | true => exact Or.inl rfl
  | false =>
    simp only [Bool.false_eq_true, if_false]
    cases hfind : db.conversations.find? (fun c => c.id == conversationId) with
    | none => exact Or.inl rfl
    | some conv =>
      simp only []
      cases hrec : recipientOf db env conv senderId with
      | none => exact Or.inl rfl
      | some recipientId =>
        simp only []
        by_cases hg :
            (!(recipientId == "") && !(recipientId == senderId)) = true
        · rw [if_pos hg]
          cases hitem : db.items.find? (fun it => it.id == conv.item_id) with
          | none => exact Or.inl rfl
          | some item =>
            simp only []
            cases hnf : env.notifInsertFails with
            | true => exact Or.inl rfl
            | false =>
              simp only [Bool.false_eq_true, if_false]
              refine Or.inr ⟨conv, recipientId, rfl, hrec, ?_, ?_,
                ⟨_, rfl, rfl, rfl⟩⟩
              · rw [Bool.and_eq_true] at hg
                have := hg.1
                rw [Bool.not_eq_true'] at this
                exact beq_eq_false_iff_ne.mp this
              · rw [Bool.and_eq_true] at hg
                have := hg.2
                rw [Bool.not_eq_true'] at this
                exact beq_eq_false_iff_ne.mp this
        · rw [if_neg hg]
          exact Or.inl rfl

/-- C8: for every successful message insertion, `sendMessage` returns the
inserted message — regardless of whether the recipient notification can be
created — and a `new_message` notification row is inserted only when a
recipient is determined that is truthy and differs from the sender. -/
theorem claim_C8_sendMessage_notification_isolation (db : ChatDB)
    (env : SendEnv) (conversationId senderId body : String)
    (uploaded : List MessageAttachment)
    (hins : env.insertError = none) :
    ∃ dbOut,
      sendMessage db env conversationId senderId body uploaded =
        .ok ({ id := env.newMessageId, conversation_id := conversationId,
               sender_id := senderId, body := body,
               attachments := uploaded }, dbOut) ∧
      dbOut.messages = db.messages ++
        [{ id := env.newMessageId, conversation_id := conversationId,
           sender_id := senderId, body := body, attachments := uploaded }] ∧
      (dbOut.notifications = db.notifications ∨
        ∃ conv recipientId,
          db.conversations.find? (fun c => c.id == conversationId) =
            some conv ∧
          recipientOf db env conv senderId = some recipientId ∧
          recipientId ≠ "" ∧ recipientId ≠ senderId ∧
          ∃ n : Notification, n.user_id = recipientId ∧
            n.type = "new_message" ∧
            dbOut.notifications = db.notifications ++ [n]) := by
  unfold sendMessage
  rw [hins]
  refine ⟨_, rfl, ?_, ?_⟩
  · rw [messages_sendMessageNotification]
  · exact sendMessageNotification_spec
      { db with messages := db.messages ++
          [{ id := env.newMessageId, conversation_id := conversationId,
             sender_id := senderId, body := body, attachments := uploaded }] }
      env conversationId senderId

/-- Concrete fixtures for the C8 witness. -/
def sampleChatConversation : Conversation :=
  { id := "conv1", item_id := "item1", type := "user-to-security",
    creator_id := "u1" }

def sampleAdminProfile : Profile :=
  { id := "admin1", full_name := some "Ann", role := some "admin" }

def sampleChatDB : ChatDB :=
  { conversations := [sampleChatConversation],
    profiles := [sampleAdminProfile],
    items := [sampleItem],
    messages := [], notifications := [] }

def sampleSendEnv : SendEnv :=
  { newMessageId := "m1", notifInsertFails := true }

/-- Witness for C8: a security conversation where the recipient is the first
admin; even with the notification insert failing, the message is returned. -/
theorem claim_C8_sendMessage_witness :
    ∃ dbOut,
      sendMessage sampleChatDB sampleSendEnv "conv1" "u1" "hello" [] =
        .ok ({ id := "m1", conversation_id := "conv1", sender_id := "u1",
               body := "hello", attachments := [] }, dbOut) ∧
      dbOut.messages = sampleChatDB.messages ++
        [{ id := "m1", conversation_id := "conv1", sender_id := "u1",
           body := "hello", attachments := [] }] ∧
      (dbOut.notifications = sampleChatDB.notifications ∨
        ∃ conv recipientId,
          sampleChatDB.conversations.find? (fun c => c.id == "conv1") =
            some conv ∧
          recipientOf sampleChatDB sampleSendEnv conv "u1" =
            some recipientId ∧
          recipientId ≠ "" ∧ recipientId ≠ "u1" ∧
          ∃ n : Notification, n.user_id = recipientId ∧
            n.type = "new_message" ∧
            dbOut.notifications = sampleChatDB.notifications ++ [n]) :=
  claim_C8_sendMessage_notification_isolation sampleChatDB sampleSendEnv
    "conv1" "u1" "hello" [] rfl

end CampusLAFT
